import Mathlib

/-!
Formal model of the llama.cpp JNI bridge
(`src/nativelib/src/main/cpp/llama_bridge.cpp`).

The bridge orchestrates one-shot completions over the llama.cpp engine:
`nativeLoadModel` (load model, create context), `nativeCompletion`
(validate, reset KV memory, configure threads, tokenize, capacity check,
chunked prompt decode, sampler-chain construction, token-by-token
generation), and `nativeFree`.

The engine itself (llama.cpp) is out of scope for the repository and is
modelled as an abstract oracle (`Engine`): tokenization, batch decode
success, sampling, end-of-generation detection and detokenization are
uninterpreted functions.  The bridge's own control flow is embedded
faithfully, and every externally visible side effect (KV-cache clears,
thread configuration, decode calls, sampler draws) is recorded in an
event trace in program order so that ordering claims can be stated.

Numeric conventions: `jint`/`jlong` values are `Int`, `jfloat`
parameters (`temp`, `topP`) are `ℚ` (the bridge only clamps and compares
them, operations on which rationals model exactly), token ids are `Int`
(C `llama_token` is `int32_t`).
-/

namespace LlamaBridge

/-- A token id (`llama_token`, an `int32_t` in C). -/
abbrev Token := Int

/-- One stage of a llama.cpp sampler chain, as added by
`llama_sampler_chain_add` in the bridge. -/
inductive SamplerStage where
  /-- `llama_sampler_init_greedy()` : deterministic arg-max. -/
  | greedy : SamplerStage
  /-- `llama_sampler_init_top_p(p, min_keep)` : nucleus filter. -/
  | topP (p : ℚ) (minKeep : Nat) : SamplerStage
  /-- `llama_sampler_init_temp(t)` : temperature scaling. -/
  | temp (t : ℚ) : SamplerStage
  /-- `llama_sampler_init_dist(seed)` : randomized terminal draw. -/
  | dist (seed : Nat) : SamplerStage
deriving DecidableEq, Repr

/-- Externally visible side effects of a completion call, recorded in
program order. -/
inductive Event where
  /-- `llama_memory_seq_rm(mem, seqId, 0, -1)` : clear the KV cache of
  one sequence id. -/
  | seqRm (seqId : Nat) : Event
  /-- `llama_set_n_threads(ctx, n, n)`. -/
  | setThreads (n : Int) : Event
  /-- The `LOGW("Potential context overflow...")` diagnostic. -/
  | warnOverflow : Event
  /-- `llama_decode(ctx, batch)` over the given tokens. -/
  | decode (batch : List Token) : Event
  /-- `llama_sampler_sample(smpl, ctx, -1)` returned this token. -/
  | sample (tok : Token) : Event
  /-- `llama_sampler_accept(smpl, tok)`. -/
  | accept (tok : Token) : Event
deriving DecidableEq, Repr

/-- The llama.cpp engine, abstracted as an oracle.  `decodeOk hist batch`
tells whether `llama_decode` succeeds when `hist` is the token history
already decoded into the context and `batch` is the new batch;
`sample chain hist` is the token the sampler chain draws in that state
(the chain argument captures that sampling depends on the configured
stages, including the dist stage's seed). -/
structure Engine where
  /-- Two-phase `llama_tokenize` collapsed: `none` = failure. -/
  tokenize : String → Option (List Token)
  /-- Success of `llama_decode` given (decoded history, batch). -/
  decodeOk : List Token → List Token → Bool
  /-- `llama_sampler_sample` given (sampler chain, decoded history). -/
  sample : List SamplerStage → List Token → Token
  /-- `llama_vocab_is_eog`. -/
  isEog : Token → Bool
  /-- `llama_token_to_piece` (possibly empty). -/
  piece : Token → String
  /-- Whether `llama_sampler_chain_init` succeeds. -/
  samplerInitOk : Bool

/-- The handle struct `LlamaHandle { model; ctx; vocab; n_ctx }` plus the
context's batch capacity `n_batch` (a property of the `llama_context`
created at load time, read back via `llama_n_batch`).  The three `Bool`s
model non-nullness of the corresponding pointers. -/
structure LlamaHandle where
  modelValid : Bool
  ctxValid : Bool
  vocabValid : Bool
  n_ctx : Int
  n_batch : Nat
deriving DecidableEq, Repr

/-- `LLAMA_DEFAULT_SEED` (`0xFFFFFFFF` in `llama.h`). -/
def LLAMA_DEFAULT_SEED : Nat := 4294967295

/-- `uint32_t s = (seed >= 0) ? (uint32_t)seed : LLAMA_DEFAULT_SEED;`
(line 228). -/
def resolveSeed (seed : Int) : Nat :=
  if 0 ≤ seed then seed.toNat % 4294967296 else LLAMA_DEFAULT_SEED

/-- `float T = std::max(0.f, temp);` (line 215). -/
def normTemp (temp : ℚ) : ℚ := max 0 temp

/-- `float P = std::clamp(topP, 0.0f, 1.0f); if (P == 0.0f) P = 0.95f;`
(lines 216-217). -/
def normTopP (topP : ℚ) : ℚ :=
  if min (max topP 0) 1 = 0 then 95 / 100 else min (max topP 0) 1

/-- Sampler-chain construction (lines 215-244): greedy only at `T = 0`,
otherwise top-p(P, min_keep=1) → temp(T) → dist(seed). -/
def buildChain (temp topP : ℚ) (seed : Int) : List SamplerStage :=
  if normTemp temp = 0 then [SamplerStage.greedy]
  else [SamplerStage.topP (normTopP topP) 1,
        SamplerStage.temp (normTemp temp),
        SamplerStage.dist (resolveSeed seed)]

/-- `max(2, sysconf(_SC_NPROCESSORS_ONLN))` — auto thread count
(lines 102 and 169); `nProcs` is the detected processor count. -/
def autoThreads (nProcs : Int) : Int := max 2 nProcs

/-- Events emitted before tokenization: the KV clear of sequence ids
0..15 (lines 160-162) then the per-call thread configuration
(lines 166-173). -/
def preTrace (nThreads nProcs : Int) : List Event :=
  (List.range 16).map Event.seqRm
    ++ [Event.setThreads (if 0 < nThreads then nThreads else autoThreads nProcs)]

/-- The capacity-check diagnostic (lines 192-197): a warning event when
`n_prompt + predict + 8 > n_ctx`, and nothing else. -/
def warnEvents (nPrompt : Nat) (predict : Int) (nCtx : Int) : List Event :=
  if (nPrompt : Int) + predict + 8 > nCtx then [Event.warnOverflow] else []

/-- Structural worker for `chunkList`: the fuel only bounds the number of
chunks (each nonempty step consumes at least one token, so a fuel of the
list's length always suffices). -/
def chunkListFuel (nBatch : Nat) : Nat → List Token → List (List Token)
  | 0, _ => []
  | _, [] => []
  | fuel + 1, t :: ts =>
      (t :: ts).take (max 1 nBatch) :: chunkListFuel nBatch fuel ((t :: ts).drop (max 1 nBatch))

/-- The prompt chunking of lines 202-204: `i` advances by `n_batch` and
each batch takes `min(n_batch, n_prompt - i)` tokens, i.e. successive
`take`/`drop` blocks.  (`n_batch` is at least 1 for any context created
by `nativeLoadModel`; the `max 1` only totalizes the `n_batch = 0` case,
on which the C loop would not terminate.) -/
def chunkList (nBatch : Nat) (l : List Token) : List (List Token) :=
  chunkListFuel nBatch l.length l

/-- Prompt evaluation (lines 201-209): decode each chunk in order;
`llama_decode != 0` aborts with failure (`none`).  Returns the decoded
history on success, plus the decode events attempted. -/
def promptEval (eng : Engine) : List (List Token) → List Token →
    Option (List Token) × List Event
  | [], hist => (some hist, [])
  | c :: cs, hist =>
      if eng.decodeOk hist c then
        ((promptEval eng cs (hist ++ c)).1,
         Event.decode c :: (promptEval eng cs (hist ++ c)).2)
      else (none, [Event.decode c])

/-- The generation loop (lines 253-286): sample; stop on end-of-generation;
accept into sampler history; append the decoded piece (an empty piece
appends nothing, exactly as the `n > 0` guard does); decode the single
token, stopping on failure with the output accumulated so far. -/
def genLoop (eng : Engine) (chain : List SamplerStage) :
    Nat → List Token → String × List Event
  | 0, _ => ("", [])
  | fuel + 1, hist =>
      if eng.isEog (eng.sample chain hist) then
        ("", [Event.sample (eng.sample chain hist)])
      else
        if eng.decodeOk hist [eng.sample chain hist] then
          (eng.piece (eng.sample chain hist)
             ++ (genLoop eng chain fuel (hist ++ [eng.sample chain hist])).1,
           Event.sample (eng.sample chain hist)
             :: Event.accept (eng.sample chain hist)
             :: Event.decode [eng.sample chain hist]
             :: (genLoop eng chain fuel (hist ++ [eng.sample chain hist])).2)
        else
          (eng.piece (eng.sample chain hist),
           [Event.sample (eng.sample chain hist),
            Event.accept (eng.sample chain hist),
            Event.decode [eng.sample chain hist]])

/-- The phase after the capacity check: chunked prompt evaluation, then
sampler-chain init (failure returns the empty string, line 221-224),
then the generation loop.  This function does not depend on the capacity
check's outcome. -/
def afterCapacity (eng : Engine) (h : LlamaHandle) (toks : List Token)
    (predict : Int) (temp topP : ℚ) (seed : Int) : String × List Event :=
  match promptEval eng (chunkList h.n_batch toks) [] with
  | (none, evs) => ("", evs)
  | (some hist, evs) =>
      if eng.samplerInitOk then
        ((genLoop eng (buildChain temp topP seed) predict.toNat hist).1,
         evs ++ (genLoop eng (buildChain temp topP seed) predict.toNat hist).2)
      else ("", evs)

/-- `Java_com_negi_nativelib_Llama_nativeCompletion` (lines 133-295).
Returns the completion text and the trace of engine side effects.
`nProcs` models `sysconf(_SC_NPROCESSORS_ONLN)`.  A `none` handle is the
null `jlong`.  Control flow in source order: handle validity check,
empty-prompt check, KV clear for sequence ids 0..15, thread
configuration, tokenization (zero tokens or failure → empty result),
capacity diagnostic, prompt evaluation, sampler chain, generation. -/
def nativeCompletion (eng : Engine) (nProcs : Int) (jHandle : Option LlamaHandle)
    (prompt : String) (nThreads maxTokens : Int) (temp topP : ℚ) (seed : Int) :
    String × List Event :=
  match jHandle with
  | none => ("", [])
  | some h =>
      if !(h.ctxValid && h.modelValid && h.vocabValid) then ("", [])
      else if prompt = "" then ("", [])
      else
        match eng.tokenize prompt with
        | none => ("", preTrace nThreads nProcs)
        | some toks =>
            if toks = [] then ("", preTrace nThreads nProcs)
            else
              ((afterCapacity eng h toks (max 1 maxTokens) temp topP seed).1,
               preTrace nThreads nProcs
                 ++ warnEvents toks.length (max 1 maxTokens) h.n_ctx
                 ++ (afterCapacity eng h toks (max 1 maxTokens) temp topP seed).2)

/-- The handle produced by a successful `nativeLoadModel(path, jNCtx)`
(lines 68-121): `n_ctx = jNCtx` if positive else 2048, and
`n_batch = min(512, n_ctx)` (lines 100-101). -/
def nativeLoadModel (jNCtx : Int) : LlamaHandle :=
  { modelValid := true, ctxValid := true, vocabValid := true,
    n_ctx := if 0 < jNCtx then jNCtx else 2048,
    n_batch := min 512 (if 0 < jNCtx then jNCtx else 2048).toNat }

/-- Teardown actions of `nativeFree`. -/
inductive FreeEvent where
  | freeCtx : FreeEvent
  | freeModel : FreeEvent
  | deleteHandle : FreeEvent
deriving DecidableEq, Repr

/-- `Java_com_negi_nativelib_Llama_nativeFree` (lines 300-314): a null
handle returns immediately with no action. -/
def nativeFree : Option LlamaHandle → List FreeEvent
  | none => []
  | some h =>
      (if h.ctxValid then [FreeEvent.freeCtx] else [])
        ++ (if h.modelValid then [FreeEvent.freeModel] else [])
        ++ [FreeEvent.deleteHandle]

/-- The token the generation loop would sample at 0-based step `j`,
starting from decoded history `hist`, assuming all earlier steps were
accepted and decoded successfully. -/
def nthTok (eng : Engine) (chain : List SamplerStage) : List Token → Nat → Token
  | hist, 0 => eng.sample chain hist
  | hist, j + 1 => nthTok eng chain (hist ++ [eng.sample chain hist]) j

/-- The first `n` tokens the generation loop would sample from history
`hist`, assuming all of them are accepted and decoded successfully. -/
def genToks (eng : Engine) (chain : List SamplerStage) : List Token → Nat → List Token
  | _, 0 => []
  | hist, n + 1 =>
      eng.sample chain hist :: genToks eng chain (hist ++ [eng.sample chain hist]) n

/-- The event trace of `n` fully successful generation steps from
history `hist`. -/
def genTrace (eng : Engine) (chain : List SamplerStage) : List Token → Nat → List Event
  | _, 0 => []
  | hist, n + 1 =>
      Event.sample (eng.sample chain hist)
        :: Event.accept (eng.sample chain hist)
        :: Event.decode [eng.sample chain hist]
        :: genTrace eng chain (hist ++ [eng.sample chain hist]) n

/-- Concatenation of the decoded pieces of a token list, in order. -/
def concatPieces (eng : Engine) (ts : List Token) : String :=
  ts.foldr (fun t acc => eng.piece t ++ acc) ""

/-- Recognizer for sampler-draw events. -/
def isSampleEv : Event → Bool
  | Event.sample _ => true
  | _ => false

/-- A concrete engine used to instantiate theorems: token 9 is the
end-of-generation marker, emitted once the decoded history holds five
tokens; every decode succeeds. -/
def witEngine : Engine :=
  { tokenize := fun s => if s = "" then none else some [1, 2, 3],
    decodeOk := fun _ _ => true,
    sample := fun _ hist => if 5 ≤ hist.length then 9 else 5,
    isEog := fun t => t = 9,
    piece := fun t => if t = 5 then "a" else "",
    samplerInitOk := true }

/-- A concrete engine whose decode fails once four tokens have been
decoded (so the second generation step's feedback decode fails). -/
def failEngine : Engine :=
  { tokenize := fun s => if s = "" then none else some [1, 2, 3],
    decodeOk := fun hist _ => hist.length < 4,
    sample := fun _ _ => 5,
    isEog := fun t => t = 9,
    piece := fun t => if t = 5 then "a" else "",
    samplerInitOk := true }

/-! ### Helper lemmas -/

theorem concatPieces_nil (eng : Engine) : concatPieces eng [] = "" := rfl

theorem concatPieces_cons (eng : Engine) (t : Token) (ts : List Token) :
    concatPieces eng (t :: ts) = eng.piece t ++ concatPieces eng ts := rfl

theorem concatPieces_append (eng : Engine) (l₁ l₂ : List Token) :
    concatPieces eng (l₁ ++ l₂) = concatPieces eng l₁ ++ concatPieces eng l₂ := by
  induction l₁ with
  | nil => simp [concatPieces_nil]
  | cons t ts ih =>
      simp only [List.cons_append, concatPieces_cons, ih, String.append_assoc]

/-! ### C8: empty prompt -/

/-- C8: for every valid handle, a completion call with an empty prompt
returns the empty string and performs no engine operation at all — the
event trace is empty, so the request short-circuits before the KV-cache
reset and before any evaluation. -/
theorem completion_empty_prompt (eng : Engine) (nProcs : Int) (h : LlamaHandle)
    (nThreads maxTokens : Int) (temp topP : ℚ) (seed : Int)
    (hv : h.ctxValid = true ∧ h.modelValid = true ∧ h.vocabValid = true) :
    nativeCompletion eng nProcs (some h) "" nThreads maxTokens temp topP seed = ("", []) := by
  simp [nativeCompletion, hv.1, hv.2.1, hv.2.2]

/-- C8 witness at a concrete handle and engine. -/
theorem completion_empty_prompt_witness :
    ((nativeLoadModel 2048).ctxValid = true ∧ (nativeLoadModel 2048).modelValid = true ∧
      (nativeLoadModel 2048).vocabValid = true) ∧
    nativeCompletion witEngine 4 (some (nativeLoadModel 2048)) "" 1 10 0 0 0 = ("", []) :=
  ⟨⟨rfl, rfl, rfl⟩,
   completion_empty_prompt witEngine 4 (nativeLoadModel 2048) 1 10 0 0 0 ⟨rfl, rfl, rfl⟩⟩

/-! ### C9: null/invalid handle safety -/

/-- C9: a completion call on a null handle returns the empty string with
an empty effect trace; likewise on a handle whose context, model or
vocabulary pointer is null; and freeing a null handle performs no
teardown action (all three operations are total functions, so none can
crash in the model). -/
theorem null_handle_safety (eng : Engine) (nProcs : Int) (prompt : String)
    (nThreads maxTokens : Int) (temp topP : ℚ) (seed : Int) (h : LlamaHandle)
    (hinv : (h.ctxValid && h.modelValid && h.vocabValid) = false) :
    nativeCompletion eng nProcs none prompt nThreads maxTokens temp topP seed = ("", []) ∧
    nativeCompletion eng nProcs (some h) prompt nThreads maxTokens temp topP seed = ("", []) ∧
    nativeFree none = [] := by
  refine ⟨rfl, ?_, rfl⟩
  simp [nativeCompletion, hinv]

/-- C9 witness at a concrete invalid handle. -/
theorem null_handle_safety_witness :
    (({ modelValid := true, ctxValid := false, vocabValid := true,
        n_ctx := 2048, n_batch := 512 : LlamaHandle }.ctxValid &&
      { modelValid := true, ctxValid := false, vocabValid := true,
        n_ctx := 2048, n_batch := 512 : LlamaHandle }.modelValid &&
      { modelValid := true, ctxValid := false, vocabValid := true,
        n_ctx := 2048, n_batch := 512 : LlamaHandle }.vocabValid) = false) ∧
    (nativeCompletion witEngine 4 none "hi" 1 10 0 0 0 = ("", []) ∧
     nativeCompletion witEngine 4
       (some { modelValid := true, ctxValid := false, vocabValid := true,
               n_ctx := 2048, n_batch := 512 }) "hi" 1 10 0 0 0 = ("", []) ∧
     nativeFree none = []) :=
  ⟨rfl, null_handle_safety witEngine 4 "hi" 1 10 0 0 0
      { modelValid := true, ctxValid := false, vocabValid := true,
        n_ctx := 2048, n_batch := 512 } rfl⟩

/-! ### C5: KV cache cleared for sequence ids 0..15 before anything else -/

/-- C5: on a valid handle with a non-empty prompt, the effect trace of a
completion call starts with the KV-cache clear of every sequence id
0..15; in particular these sixteen clears precede every decode, so each
completion starts from an empty context state. -/
theorem kv_cleared_first (eng : Engine) (nProcs : Int) (h : LlamaHandle)
    (prompt : String) (nThreads maxTokens : Int) (temp topP : ℚ) (seed : Int)
    (hv1 : h.ctxValid = true) (hv2 : h.modelValid = true) (hv3 : h.vocabValid = true)
    (hp : prompt ≠ "") :
    ∃ rest, (nativeCompletion eng nProcs (some h) prompt nThreads maxTokens temp topP seed).2
      = (List.range 16).map Event.seqRm ++ rest := by
  simp only [nativeCompletion, hv1, hv2, hv3, Bool.and_self, Bool.not_true, Bool.false_eq_true,
    if_false, if_neg hp]
  cases htok : eng.tokenize prompt with
  | none =>
      exact ⟨[Event.setThreads (if 0 < nThreads then nThreads else autoThreads nProcs)],
        by simp [preTrace]⟩
  | some toks =>
      by_cases he : toks = []
      · exact ⟨[Event.setThreads (if 0 < nThreads then nThreads else autoThreads nProcs)],
          by simp [he, preTrace]⟩
      · exact ⟨Event.setThreads (if 0 < nThreads then nThreads else autoThreads nProcs)
            :: (warnEvents toks.length (max 1 maxTokens) h.n_ctx
                ++ (afterCapacity eng h toks (max 1 maxTokens) temp topP seed).2),
          by simp [he, preTrace, List.append_assoc]⟩

/-- C5 witness at a concrete call. -/
theorem kv_cleared_first_witness :
    ((nativeLoadModel 2048).ctxValid = true) ∧ ("hi" ≠ "") ∧
    ∃ rest, (nativeCompletion witEngine 4 (some (nativeLoadModel 2048)) "hi" 1 10 0 0 0).2
      = (List.range 16).map Event.seqRm ++ rest :=
  ⟨rfl, by decide,
   kv_cleared_first witEngine 4 (nativeLoadModel 2048) "hi" 1 10 0 0 0 rfl rfl rfl (by decide)⟩

/-! ### C7: capacity overflow is a soft warning -/

/-- C7: when `n_prompt + max(1, maxTokens) + 8 > n_ctx`, the completion
is not rejected: the result text is exactly the text produced by the
rest of the pipeline (`afterCapacity`, which does not depend on the
check), and the trace only gains the single diagnostic
`Event.warnOverflow` between thread setup and prompt evaluation. -/
theorem capacity_check_is_soft (eng : Engine) (nProcs : Int) (h : LlamaHandle)
    (prompt : String) (nThreads maxTokens : Int) (temp topP : ℚ) (seed : Int)
    (toks : List Token)
    (hv1 : h.ctxValid = true) (hv2 : h.modelValid = true) (hv3 : h.vocabValid = true)
    (hp : prompt ≠ "") (htok : eng.tokenize prompt = some toks) (hne : toks ≠ [])
    (hover : (toks.length : Int) + max 1 maxTokens + 8 > h.n_ctx) :
    nativeCompletion eng nProcs (some h) prompt nThreads maxTokens temp topP seed
      = ((afterCapacity eng h toks (max 1 maxTokens) temp topP seed).1,
         preTrace nThreads nProcs
           ++ Event.warnOverflow
             :: (afterCapacity eng h toks (max 1 maxTokens) temp topP seed).2) := by
  simp only [nativeCompletion, hv1, hv2, hv3, Bool.and_self, Bool.not_true, Bool.false_eq_true,
    if_false, if_neg hp, htok, if_neg hne, warnEvents, if_pos hover]
  simp

/-- C7 witness: a prompt of three tokens with budget 10 against a
context window of one token overflows, warns and proceeds. -/
theorem capacity_check_is_soft_witness :
    ((nativeLoadModel 1).ctxValid = true) ∧ (witEngine.tokenize "hi" = some [1, 2, 3]) ∧
    (((([1, 2, 3] : List Token).length : Int) + max 1 10 + 8 > (nativeLoadModel 1).n_ctx)) ∧
    nativeCompletion witEngine 4 (some (nativeLoadModel 1)) "hi" 1 10 0 0 0
      = ((afterCapacity witEngine (nativeLoadModel 1) [1, 2, 3] (max 1 10) 0 0 0).1,
         preTrace 1 4
           ++ Event.warnOverflow
             :: (afterCapacity witEngine (nativeLoadModel 1) [1, 2, 3] (max 1 10) 0 0 0).2) :=
  ⟨rfl, rfl, by decide,
   capacity_check_is_soft witEngine 4 (nativeLoadModel 1) "hi" 1 10 0 0 0 [1, 2, 3]
     rfl rfl rfl (by decide) rfl (by decide) (by decide)⟩

/-! ### C3: sampler chain order for T > 0 -/

/-- C3: with caller temperature `T > 0` the sampler chain is exactly
nucleus filter (threshold = `topP` clamped to `[0,1]`, with 0 replaced
by 0.95; minimum-keep 1), then temperature scaling with `T`, then the
randomized draw as terminal stage, seeded with the caller's seed when
`seed ≥ 0` and with `LLAMA_DEFAULT_SEED` otherwise.  (The bound
`seed < 2^32` holds for every `jint`.) -/
theorem chain_order_at_positive_temp (temp topP : ℚ) (seed : Int)
    (hT : 0 < temp) (hs : seed < 4294967296) :
    buildChain temp topP seed =
      [SamplerStage.topP (if min (max topP 0) 1 = 0 then 95 / 100 else min (max topP 0) 1) 1,
       SamplerStage.temp temp,
       SamplerStage.dist (if 0 ≤ seed then seed.toNat else LLAMA_DEFAULT_SEED)] := by
  have hnt : normTemp temp = temp := max_eq_right hT.le
  have hne : ¬ normTemp temp = 0 := by rw [hnt]; exact (ne_of_gt hT)
  have hne' : ¬ temp = 0 := ne_of_gt hT
  simp only [buildChain, if_neg hne, hnt, normTopP, resolveSeed]
  rcases le_or_lt 0 seed with h0 | h0
  · have hmod : seed.toNat % 4294967296 = seed.toNat := by omega
    simp [h0, hmod, hne']
  · simp [not_le.mpr h0, hne']

/-- C3 witness at `T = 1`, `topP = 0`, `seed = 7`. -/
theorem chain_order_at_positive_temp_witness :
    ((0 : ℚ) < 1) ∧ ((7 : Int) < 4294967296) ∧
    buildChain 1 0 7 =
      [SamplerStage.topP (if min (max (0 : ℚ) 0) 1 = 0 then 95 / 100 else min (max (0 : ℚ) 0) 1) 1,
       SamplerStage.temp 1,
       SamplerStage.dist (if (0 : Int) ≤ 7 then (7 : Int).toNat else LLAMA_DEFAULT_SEED)] :=
  ⟨by norm_num, by decide, chain_order_at_positive_temp 1 0 7 (by norm_num) (by decide)⟩

/-! ### C4: determinism at T = 0, seed ignored -/

/-- C4: at temperature 0 the sampler chain is the greedy arg-max stage
alone (no seed appears in it), and two completion calls that differ only
in their seed argument return identical results — text and trace. -/
theorem deterministic_at_temp_zero (eng : Engine) (nProcs : Int)
    (jh : Option LlamaHandle) (prompt : String) (nThreads maxTokens : Int)
    (topP : ℚ) (s₁ s₂ : Int) :
    buildChain 0 topP s₁ = [SamplerStage.greedy] ∧
    nativeCompletion eng nProcs jh prompt nThreads maxTokens 0 topP s₁ =
      nativeCompletion eng nProcs jh prompt nThreads maxTokens 0 topP s₂ := by
  have hb : ∀ s : Int, buildChain 0 topP s = [SamplerStage.greedy] := by
    intro s; simp [buildChain, normTemp]
  refine ⟨hb s₁, ?_⟩
  have hac : ∀ (h : LlamaHandle) (toks : List Token) (pred : Int),
      afterCapacity eng h toks pred 0 topP s₁ = afterCapacity eng h toks pred 0 topP s₂ := by
    intro h toks pred
    simp only [afterCapacity, hb]
  simp only [nativeCompletion, hac]

/-! ### C10: generation budget normalization -/

theorem genLoop_countP_le (eng : Engine) (chain : List SamplerStage) :
    ∀ (fuel : Nat) (hist : List Token),
      (genLoop eng chain fuel hist).2.countP isSampleEv ≤ fuel := by
  intro fuel
  induction fuel with
  | zero => intro hist; simp [genLoop]
  | succ f ih =>
      intro hist
      simp only [genLoop]
      split
      · simp [List.countP_cons, isSampleEv]
      · split
        · have := ih (hist ++ [eng.sample chain hist])
          simp [List.countP_cons, isSampleEv]
          omega
        · simp [List.countP_cons, isSampleEv]

theorem promptEval_countP (eng : Engine) :
    ∀ (cs : List (List Token)) (hist : List Token),
      (promptEval eng cs hist).2.countP isSampleEv = 0 := by
  intro cs
  induction cs with
  | nil => intro hist; simp [promptEval]
  | cons c cs ih =>
      intro hist
      simp only [promptEval]
      split
      · simp [List.countP_cons, isSampleEv, ih]
      · simp [List.countP_cons, isSampleEv]

theorem preTrace_countP (nThreads nProcs : Int) :
    (preTrace nThreads nProcs).countP isSampleEv = 0 := by
  rw [List.countP_eq_zero]
  intro e he
  simp only [preTrace, List.mem_append, List.mem_map, List.mem_singleton] at he
  rcases he with ⟨i, _, rfl⟩ | rfl <;> simp [isSampleEv]

theorem warnEvents_countP (n : Nat) (p c : Int) :
    (warnEvents n p c).countP isSampleEv = 0 := by
  unfold warnEvents; split <;> simp [isSampleEv]

theorem afterCapacity_countP_le (eng : Engine) (h : LlamaHandle) (toks : List Token)
    (predict : Int) (temp topP : ℚ) (seed : Int) :
    (afterCapacity eng h toks predict temp topP seed).2.countP isSampleEv ≤ predict.toNat := by
  rcases hpe : promptEval eng (chunkList h.n_batch toks) [] with ⟨o, evs⟩
  have h0 : evs.countP isSampleEv = 0 := by
    have := promptEval_countP eng (chunkList h.n_batch toks) []
    rw [hpe] at this; exact this
  cases o with
  | none => simp [afterCapacity, hpe, h0]
  | some hist =>
      simp only [afterCapacity, hpe]
      split
      · simp only [List.countP_append, h0, Nat.zero_add]
        exact genLoop_countP_le eng (buildChain temp topP seed) predict.toNat hist
      · simp [h0]

/-- C10: the generation budget never rejects a request: the number of
sampler draws in any completion is at most `max(1, maxTokens)`, and a
call behaves identically to the same call with budget `max(1, maxTokens)`
— in particular a non-positive `maxTokens` is normalized to 1 and may
still produce one generated token. -/
theorem generation_budget (eng : Engine) (nProcs : Int) (jh : Option LlamaHandle)
    (prompt : String) (nThreads maxTokens : Int) (temp topP : ℚ) (seed : Int) :
    (nativeCompletion eng nProcs jh prompt nThreads maxTokens temp topP seed).2.countP isSampleEv
      ≤ (max 1 maxTokens).toNat ∧
    nativeCompletion eng nProcs jh prompt nThreads maxTokens temp topP seed
      = nativeCompletion eng nProcs jh prompt nThreads (max 1 maxTokens) temp topP seed := by
  constructor
  · match jh with
    | none => simp [nativeCompletion]
    | some h =>
        simp only [nativeCompletion]
        split
        · simp
        · split
          · simp
          · cases htok : eng.tokenize prompt with
            | none => simp [preTrace_countP]
            | some toks =>
                by_cases he : toks = []
                · simp [he, preTrace_countP]
                · have hb := afterCapacity_countP_le eng h toks (max 1 maxTokens) temp topP seed
                  have h1 : (preTrace nThreads nProcs).countP isSampleEv = 0 :=
                    preTrace_countP _ _
                  have h2 : (warnEvents toks.length (max 1 maxTokens) h.n_ctx).countP isSampleEv
                      = 0 := warnEvents_countP _ _ _
                  simp only [if_neg he, List.countP_append, h1, h2, Nat.zero_add, Nat.add_zero]
                  exact hb
  · have hmm : max 1 (max 1 maxTokens) = max 1 maxTokens := by
      rw [← max_assoc, max_self]
    simp only [nativeCompletion, hmm]

/-! ### C6: prompt chunking -/

theorem chunkListFuel_join (b : Nat) :
    ∀ (fuel : Nat) (l : List Token), l.length ≤ fuel → (chunkListFuel b fuel l).flatten = l := by
  intro fuel
  induction fuel with
  | zero =>
      intro l hl
      cases l with
      | nil => rfl
      | cons t ts => simp at hl
  | succ f ih =>
      intro l hl
      cases l with
      | nil => rfl
      | cons t ts =>
          simp only [chunkListFuel, List.flatten_cons]
          rw [ih]
          · exact List.take_append_drop _ _
          · have h1 : 1 ≤ max 1 b := Nat.le_max_left 1 b
            simp only [List.length_drop, List.length_cons] at *
            omega

theorem chunkList_join (b : Nat) (l : List Token) : (chunkList b l).flatten = l :=
  chunkListFuel_join b l.length l le_rfl

theorem chunkListFuel_length_le (b : Nat) :
    ∀ (fuel : Nat) (l c : List Token), c ∈ chunkListFuel b fuel l → c.length ≤ max 1 b := by
  intro fuel
  induction fuel with
  | zero => intro l c hc; simp [chunkListFuel] at hc
  | succ f ih =>
      intro l c hc
      cases l with
      | nil => simp [chunkListFuel] at hc
      | cons t ts =>
          simp only [chunkListFuel, List.mem_cons] at hc
          rcases hc with rfl | hc
          · rw [List.length_take]
            exact Nat.min_le_left _ _
          · exact ih _ _ hc

/-- C6: the prompt token sequence is split into consecutive chunks — their
concatenation in order is the original sequence — each of at most
`min(512, n_ctx)` tokens (the batch capacity fixed at load time), and if
the evaluation of any chunk fails the request aborts at that point with
the empty string as result. -/
theorem prompt_chunking (eng : Engine) (nProcs : Int) (h : LlamaHandle)
    (prompt : String) (nThreads maxTokens : Int) (temp topP : ℚ) (seed : Int)
    (toks : List Token)
    (hv1 : h.ctxValid = true) (hv2 : h.modelValid = true) (hv3 : h.vocabValid = true)
    (hp : prompt ≠ "") (htok : eng.tokenize prompt = some toks) (hne : toks ≠ [])
    (hc : 0 < h.n_ctx) (hb : h.n_batch = min 512 h.n_ctx.toNat) :
    (chunkList h.n_batch toks).flatten = toks ∧
    (∀ c ∈ chunkList h.n_batch toks, c.length ≤ min 512 h.n_ctx.toNat) ∧
    ((promptEval eng (chunkList h.n_batch toks) []).1 = none →
      nativeCompletion eng nProcs (some h) prompt nThreads maxTokens temp topP seed
        = ("", preTrace nThreads nProcs
               ++ warnEvents toks.length (max 1 maxTokens) h.n_ctx
               ++ (promptEval eng (chunkList h.n_batch toks) []).2)) := by
  have hb1 : 1 ≤ h.n_batch := by
    rw [hb]
    have h1 : 1 ≤ h.n_ctx.toNat := by omega
    omega
  refine ⟨chunkList_join _ _, ?_, ?_⟩
  · intro c hc'
    have := chunkListFuel_length_le h.n_batch toks.length toks c hc'
    rwa [max_eq_right hb1, hb] at this
  · intro hfail
    rcases hpe : promptEval eng (chunkList h.n_batch toks) [] with ⟨o, evs⟩
    rw [hpe] at hfail
    simp only at hfail
    subst hfail
    simp only [nativeCompletion, hv1, hv2, hv3, Bool.and_self, Bool.not_true,
      Bool.false_eq_true, if_false, if_neg hp, htok, if_neg hne, afterCapacity, hpe]

/-- C6 witness at a concrete call. -/
theorem prompt_chunking_witness :
    ((nativeLoadModel 2048).ctxValid = true) ∧ ("hi" ≠ "") ∧
    (witEngine.tokenize "hi" = some [1, 2, 3]) ∧ (([1, 2, 3] : List Token) ≠ []) ∧
    (0 < (nativeLoadModel 2048).n_ctx) ∧
    ((nativeLoadModel 2048).n_batch = min 512 (nativeLoadModel 2048).n_ctx.toNat) ∧
    ((chunkList (nativeLoadModel 2048).n_batch [1, 2, 3]).flatten = [1, 2, 3] ∧
     (∀ c ∈ chunkList (nativeLoadModel 2048).n_batch [1, 2, 3],
        c.length ≤ min 512 (nativeLoadModel 2048).n_ctx.toNat) ∧
     ((promptEval witEngine (chunkList (nativeLoadModel 2048).n_batch [1, 2, 3]) []).1 = none →
       nativeCompletion witEngine 4 (some (nativeLoadModel 2048)) "hi" 1 10 0 0 0
         = ("", preTrace 1 4
                ++ warnEvents ([1, 2, 3] : List Token).length (max 1 10) (nativeLoadModel 2048).n_ctx
                ++ (promptEval witEngine (chunkList (nativeLoadModel 2048).n_batch [1, 2, 3]) []).2))) :=
  ⟨rfl, by decide, rfl, by decide, by decide, by decide,
   prompt_chunking witEngine 4 (nativeLoadModel 2048) "hi" 1 10 0 0 0 [1, 2, 3]
     rfl rfl rfl (by decide) rfl (by decide) (by decide) (by decide)⟩

/-! ### Generation-loop lemmas for C1 and C2 -/

theorem nthTok_zero (eng : Engine) (chain : List SamplerStage) (hist : List Token) :
    nthTok eng chain hist 0 = eng.sample chain hist := rfl

theorem nthTok_succ (eng : Engine) (chain : List SamplerStage) (hist : List Token) (j : Nat) :
    nthTok eng chain hist (j + 1)
      = nthTok eng chain (hist ++ [eng.sample chain hist]) j := rfl

theorem genToks_zero (eng : Engine) (chain : List SamplerStage) (hist : List Token) :
    genToks eng chain hist 0 = [] := rfl

theorem genToks_succ (eng : Engine) (chain : List SamplerStage) (hist : List Token) (n : Nat) :
    genToks eng chain hist (n + 1)
      = eng.sample chain hist :: genToks eng chain (hist ++ [eng.sample chain hist]) n := rfl

theorem genTrace_zero (eng : Engine) (chain : List SamplerStage) (hist : List Token) :
    genTrace eng chain hist 0 = [] := rfl

theorem genTrace_succ (eng : Engine) (chain : List SamplerStage) (hist : List Token) (n : Nat) :
    genTrace eng chain hist (n + 1)
      = Event.sample (eng.sample chain hist)
          :: Event.accept (eng.sample chain hist)
          :: Event.decode [eng.sample chain hist]
          :: genTrace eng chain (hist ++ [eng.sample chain hist]) n := rfl

/-- The token of step `m` is the sampler's draw over the history extended
by the first `m` generated tokens. -/
theorem nthTok_eq_sample (eng : Engine) (chain : List SamplerStage) :
    ∀ (m : Nat) (hist : List Token),
      nthTok eng chain hist m = eng.sample chain (hist ++ genToks eng chain hist m) := by
  intro m
  induction m with
  | zero => intro hist; simp [nthTok_zero, genToks_zero]
  | succ m ih =>
      intro hist
      rw [nthTok_succ, ih, genToks_succ]
      simp [List.append_assoc]

theorem genToks_succ_snoc (eng : Engine) (chain : List SamplerStage) :
    ∀ (m : Nat) (hist : List Token),
      genToks eng chain hist (m + 1)
        = genToks eng chain hist m ++ [nthTok eng chain hist m] := by
  intro m
  induction m with
  | zero => intro hist; simp [genToks_succ, genToks_zero, nthTok_zero]
  | succ m ih =>
      intro hist
      rw [genToks_succ eng chain hist (m + 1), ih, genToks_succ eng chain hist m,
        nthTok_succ]
      simp

theorem genTrace_succ_snoc (eng : Engine) (chain : List SamplerStage) :
    ∀ (m : Nat) (hist : List Token),
      genTrace eng chain hist (m + 1)
        = genTrace eng chain hist m
            ++ [Event.sample (nthTok eng chain hist m),
                Event.accept (nthTok eng chain hist m),
                Event.decode [nthTok eng chain hist m]] := by
  intro m
  induction m with
  | zero => intro hist; simp [genTrace_succ, genTrace_zero, nthTok_zero]
  | succ m ih =>
      intro hist
      rw [genTrace_succ eng chain hist (m + 1), ih, genTrace_succ eng chain hist m,
        nthTok_succ]
      simp

/-- A clean run: if the first `m` steps each sample a non-end token and
its feedback decode succeeds, the loop's result is the pieces of those
`m` tokens followed by whatever the loop does with the remaining fuel
from the extended history. -/
theorem genLoop_clean_run (eng : Engine) (chain : List SamplerStage) :
    ∀ (m fuel : Nat) (hist : List Token), m ≤ fuel →
    (∀ j, j < m → eng.isEog (nthTok eng chain hist j) = false ∧
        eng.decodeOk (hist ++ genToks eng chain hist j) [nthTok eng chain hist j] = true) →
    genLoop eng chain fuel hist =
      (concatPieces eng (genToks eng chain hist m)
         ++ (genLoop eng chain (fuel - m) (hist ++ genToks eng chain hist m)).1,
       genTrace eng chain hist m
         ++ (genLoop eng chain (fuel - m) (hist ++ genToks eng chain hist m)).2) := by
  intro m
  induction m with
  | zero =>
      intro fuel hist _ _
      simp [genToks_zero, genTrace_zero, concatPieces_nil]
  | succ m ih =>
      intro fuel hist hle hclean
      cases fuel with
      | zero => omega
      | succ f =>
          have h0 := hclean 0 (Nat.succ_pos m)
          rw [nthTok_zero, genToks_zero, List.append_nil] at h0
          have hshift : ∀ j, j < m →
              eng.isEog (nthTok eng chain (hist ++ [eng.sample chain hist]) j) = false ∧
              eng.decodeOk ((hist ++ [eng.sample chain hist])
                  ++ genToks eng chain (hist ++ [eng.sample chain hist]) j)
                [nthTok eng chain (hist ++ [eng.sample chain hist]) j] = true := by
            intro j hj
            have := hclean (j + 1) (by omega)
            rw [nthTok_succ, genToks_succ] at this
            simpa [List.append_assoc] using this
          have hrec := ih f (hist ++ [eng.sample chain hist]) (by omega) hshift
          simp only [genLoop, h0.1, h0.2, Bool.false_eq_true, if_false, if_true, hrec,
            genToks_succ, genTrace_succ, concatPieces_cons, Nat.succ_sub_succ]
          simp [Prod.ext_iff, String.append_assoc, List.append_assoc]

/-! ### C1: stop on end-of-generation token -/

/-- C1: if the first `k-1` generation steps sample non-end tokens whose
feedback decodes succeed and step `k` (1-based, `k ≤ max(1, maxTokens)`)
samples an end-of-generation token, the loop stops there as a successful
termination: the returned text is exactly the concatenation of the
decoded pieces of the first `k-1` sampled tokens, and the trace ends
with the `k`-th sampler draw — the end token is never accepted, decoded
or appended, so it contributes no text. -/
theorem eog_stops_generation (eng : Engine) (nProcs : Int) (h : LlamaHandle)
    (prompt : String) (nThreads maxTokens : Int) (temp topP : ℚ) (seed : Int)
    (toks hist0 : List Token) (ptrace : List Event) (k : Nat)
    (hv1 : h.ctxValid = true) (hv2 : h.modelValid = true) (hv3 : h.vocabValid = true)
    (hp : prompt ≠ "") (htok : eng.tokenize prompt = some toks) (hne : toks ≠ [])
    (hpe : promptEval eng (chunkList h.n_batch toks) [] = (some hist0, ptrace))
    (hsi : eng.samplerInitOk = true)
    (hk1 : 1 ≤ k) (hk2 : k ≤ (max 1 maxTokens).toNat)
    (hclean : ∀ j, j < k - 1 →
        eng.isEog (nthTok eng (buildChain temp topP seed) hist0 j) = false ∧
        eng.decodeOk (hist0 ++ genToks eng (buildChain temp topP seed) hist0 j)
          [nthTok eng (buildChain temp topP seed) hist0 j] = true)
    (heog : eng.isEog (nthTok eng (buildChain temp topP seed) hist0 (k - 1)) = true) :
    nativeCompletion eng nProcs (some h) prompt nThreads maxTokens temp topP seed
      = (concatPieces eng (genToks eng (buildChain temp topP seed) hist0 (k - 1)),
         preTrace nThreads nProcs
           ++ warnEvents toks.length (max 1 maxTokens) h.n_ctx
           ++ ptrace
           ++ genTrace eng (buildChain temp topP seed) hist0 (k - 1)
           ++ [Event.sample (nthTok eng (buildChain temp topP seed) hist0 (k - 1))]) := by
  have hrun := genLoop_clean_run eng (buildChain temp topP seed) (k - 1)
    ((max 1 maxTokens).toNat) hist0 (by omega) hclean
  obtain ⟨f', hf'⟩ : ∃ f', (max 1 maxTokens).toNat - (k - 1) = f' + 1 :=
    ⟨(max 1 maxTokens).toNat - (k - 1) - 1, by omega⟩
  have hsample : eng.sample (buildChain temp topP seed)
      (hist0 ++ genToks eng (buildChain temp topP seed) hist0 (k - 1))
      = nthTok eng (buildChain temp topP seed) hist0 (k - 1) :=
    (nthTok_eq_sample eng (buildChain temp topP seed) (k - 1) hist0).symm
  have hstop : genLoop eng (buildChain temp topP seed) ((max 1 maxTokens).toNat - (k - 1))
      (hist0 ++ genToks eng (buildChain temp topP seed) hist0 (k - 1))
      = ("", [Event.sample (nthTok eng (buildChain temp topP seed) hist0 (k - 1))]) := by
    rw [hf']
    simp [genLoop, hsample, heog]
  rw [hstop] at hrun
  rw [String.append_empty] at hrun
  simp only [nativeCompletion, hv1, hv2, hv3, Bool.and_self, Bool.not_true, Bool.false_eq_true,
    if_false, if_neg hp, htok, if_neg hne, afterCapacity, hpe, hsi, if_true, hrun]
  simp [List.append_assoc]

/-- C1 witness: with `witEngine`, the third draw is the end token 9, so
the result is the two pieces "a" ++ "a" of the first two tokens. -/
theorem eog_stops_generation_witness :
    nativeCompletion witEngine 4 (some (nativeLoadModel 2048)) "hi" 1 10 0 0 0
      = (concatPieces witEngine (genToks witEngine (buildChain 0 0 0) [1, 2, 3] (3 - 1)),
         preTrace 1 4
           ++ warnEvents ([1, 2, 3] : List Token).length (max 1 10) (nativeLoadModel 2048).n_ctx
           ++ [Event.decode [1, 2, 3]]
           ++ genTrace witEngine (buildChain 0 0 0) [1, 2, 3] (3 - 1)
           ++ [Event.sample (nthTok witEngine (buildChain 0 0 0) [1, 2, 3] (3 - 1))]) :=
  eog_stops_generation witEngine 4 (nativeLoadModel 2048) "hi" 1 10 0 0 0
    [1, 2, 3] [1, 2, 3] [Event.decode [1, 2, 3]] 3
    rfl rfl rfl (by decide) rfl (by decide) (by decide) rfl
    (by decide) (by decide) (by decide) (by decide)

/-! ### C2: decode failure mid-generation returns accumulated text -/

/-- C2: if the first `k-1` generation steps are clean and at step `k`
(1-based, `k ≤ max(1, maxTokens)`) a non-end token is sampled but its
feedback decode fails, the loop stops and the call returns, as an
ordinary value, the text accumulated so far — the pieces of the first
`k` sampled tokens, including the one whose decode failed, since its
piece is appended before the decode. -/
theorem decode_failure_keeps_accumulated_text (eng : Engine) (nProcs : Int) (h : LlamaHandle)
    (prompt : String) (nThreads maxTokens : Int) (temp topP : ℚ) (seed : Int)
    (toks hist0 : List Token) (ptrace : List Event) (k : Nat)
    (hv1 : h.ctxValid = true) (hv2 : h.modelValid = true) (hv3 : h.vocabValid = true)
    (hp : prompt ≠ "") (htok : eng.tokenize prompt = some toks) (hne : toks ≠ [])
    (hpe : promptEval eng (chunkList h.n_batch toks) [] = (some hist0, ptrace))
    (hsi : eng.samplerInitOk = true)
    (hk1 : 1 ≤ k) (hk2 : k ≤ (max 1 maxTokens).toNat)
    (hclean : ∀ j, j < k - 1 →
        eng.isEog (nthTok eng (buildChain temp topP seed) hist0 j) = false ∧
        eng.decodeOk (hist0 ++ genToks eng (buildChain temp topP seed) hist0 j)
          [nthTok eng (buildChain temp topP seed) hist0 j] = true)
    (hnoeog : eng.isEog (nthTok eng (buildChain temp topP seed) hist0 (k - 1)) = false)
    (hfail : eng.decodeOk (hist0 ++ genToks eng (buildChain temp topP seed) hist0 (k - 1))
        [nthTok eng (buildChain temp topP seed) hist0 (k - 1)] = false) :
    nativeCompletion eng nProcs (some h) prompt nThreads maxTokens temp topP seed
      = (concatPieces eng (genToks eng (buildChain temp topP seed) hist0 k),
         preTrace nThreads nProcs
           ++ warnEvents toks.length (max 1 maxTokens) h.n_ctx
           ++ ptrace
           ++ genTrace eng (buildChain temp topP seed) hist0 k) := by
  obtain ⟨m, rfl⟩ : ∃ m, k = m + 1 := ⟨k - 1, by omega⟩
  rw [Nat.add_sub_cancel] at hclean hnoeog hfail
  have hrun := genLoop_clean_run eng (buildChain temp topP seed) m
    ((max 1 maxTokens).toNat) hist0 (by omega) (by simpa using hclean)
  obtain ⟨f', hf'⟩ : ∃ f', (max 1 maxTokens).toNat - m = f' + 1 :=
    ⟨(max 1 maxTokens).toNat - m - 1, by omega⟩
  have hsample : eng.sample (buildChain temp topP seed)
      (hist0 ++ genToks eng (buildChain temp topP seed) hist0 m)
      = nthTok eng (buildChain temp topP seed) hist0 m :=
    (nthTok_eq_sample eng (buildChain temp topP seed) m hist0).symm
  have hstop : genLoop eng (buildChain temp topP seed) ((max 1 maxTokens).toNat - m)
      (hist0 ++ genToks eng (buildChain temp topP seed) hist0 m)
      = (eng.piece (nthTok eng (buildChain temp topP seed) hist0 m),
         [Event.sample (nthTok eng (buildChain temp topP seed) hist0 m),
          Event.accept (nthTok eng (buildChain temp topP seed) hist0 m),
          Event.decode [nthTok eng (buildChain temp topP seed) hist0 m]]) := by
    rw [hf']
    simp [genLoop, hsample, hnoeog, hfail]
  rw [hstop] at hrun
  simp only [nativeCompletion, hv1, hv2, hv3, Bool.and_self, Bool.not_true, Bool.false_eq_true,
    if_false, if_neg hp, htok, if_neg hne, afterCapacity, hpe, hsi, if_true, hrun]
  rw [genToks_succ_snoc, genTrace_succ_snoc, concatPieces_append, concatPieces_cons,
    concatPieces_nil, String.append_empty]
  simp [List.append_assoc]

/-- C2 witness: with `failEngine`, the second step's feedback decode
fails, so the result is the pieces of both sampled tokens, "a" ++ "a". -/
theorem decode_failure_keeps_accumulated_text_witness :
    nativeCompletion failEngine 4 (some (nativeLoadModel 2048)) "hi" 1 10 0 0 0
      = (concatPieces failEngine (genToks failEngine (buildChain 0 0 0) [1, 2, 3] 2),
         preTrace 1 4
           ++ warnEvents ([1, 2, 3] : List Token).length (max 1 10) (nativeLoadModel 2048).n_ctx
           ++ [Event.decode [1, 2, 3]]
           ++ genTrace failEngine (buildChain 0 0 0) [1, 2, 3] 2) :=
  decode_failure_keeps_accumulated_text failEngine 4 (nativeLoadModel 2048) "hi" 1 10 0 0 0
    [1, 2, 3] [1, 2, 3] [Event.decode [1, 2, 3]] 2
    rfl rfl rfl (by decide) rfl (by decide) (by decide) rfl
    (by decide) (by decide) (by decide) (by decide) (by decide)

end LlamaBridge
